import Mathlib

/-!
A shallow embedding of the `ip-filter` reverse proxy (src/main.py, src/config.py,
src/utils.py) together with proofs about its request-handling, configuration
loading and policy-merging logic.

Machine strings are Lean `String`s; byte strings are `List Nat`; Python
exceptions are modelled with `Except`/`Option`; the external `ipaddress`
library is abstracted by a record of parsing functions.
-/

namespace IpFilter

instance {ε α : Type} [DecidableEq ε] [DecidableEq α] : DecidableEq (Except ε α) :=
  fun a b =>
    match a, b with
    | Except.error e, Except.error f =>
      if h : e = f then Decidable.isTrue (by rw [h])
      else Decidable.isFalse (fun hc => h (Except.error.inj hc))
    | Except.ok x, Except.ok y =>
      if h : x = y then Decidable.isTrue (by rw [h])
      else Decidable.isFalse (fun hc => h (Except.ok.inj hc))
    | Except.error _, Except.ok _ => Decidable.isFalse (fun hc => Except.noConfusion hc)
    | Except.ok _, Except.error _ => Decidable.isFalse (fun hc => Except.noConfusion hc)

/-! ## Data model -/

/-- One `BasicAuth` entry of a policy document: `{Path, Username, Password}`. -/
structure BasicAuthEntry where
  Path : String
  Username : String
  Password : String
deriving DecidableEq, Repr

/-- One `SharedTokens` entry of a policy document: `{HeaderName, Value}`. -/
structure SharedTokenEntry where
  HeaderName : String
  Value : String
deriving DecidableEq, Repr

/-- The merged ip-filter rules returned by `get_ipfilter_config`
(the dict with keys `ips`, `auth`, `shared_tokens`). -/
structure IpFilterRules where
  ips : List String
  auth : List BasicAuthEntry
  shared_tokens : List SharedTokenEntry
deriving DecidableEq, Repr

/-- The Flask `app.config` fields read by `handle_request` (from settings.py). -/
structure AppSettings where
  IPFILTER_ENABLED : Bool
  IP_DETERMINED_BY_X_FORWARDED_FOR_INDEX : Int
  PROTECTED_PATHS : List String
  PUBLIC_PATHS : List String
  PRIV_HOST_LIST : List String
  PUB_HOST_LIST : List String
  ADDITIONAL_IP_LIST : List String
deriving DecidableEq, Repr

/-- An inbound WSGI request as seen by `handle_request`: `request.path`,
`request.host`, `request.method`, `request.full_path`, the header list
(ordered, duplicates allowed), the parsed `Authorization` header
(username, password) and the request body stream as a byte list. -/
structure Request where
  path : String
  host : String
  method : String
  full_path : String
  headers : List (String × String)
  authorization : Option (String × String)
  stream : List Nat
deriving DecidableEq, Repr

/-! ## Python string primitives

Lean's own `String.toLower`, `String.splitOn`, `String.trim` and
`String.startsWith` are compiled by well-founded recursion and do not reduce
inside the kernel, so the Python string operations used by the program are
given structural definitions over `String.data` here. -/

/-- Python `str.lower()` (ASCII, which covers the header names and
configuration strings this program lowercases). -/
def lowerStr (s : String) : String :=
  ⟨s.data.map Char.toLower⟩

/-- Python `str.upper()` (ASCII). -/
def upperStr (s : String) : String :=
  ⟨s.data.map Char.toUpper⟩

def startsWithChars : List Char → List Char → Bool
  | _, [] => true
  | [], _ :: _ => false
  | c :: cs, d :: ds => c == d && startsWithChars cs ds

/-- Python `str.startswith(p)`. -/
def startsWithStr (s p : String) : Bool :=
  startsWithChars s.data p.data

def splitOnChar (sep : Char) : List Char → List (List Char)
  | [] => [[]]
  | c :: rest =>
    let r := splitOnChar sep rest
    if c == sep then [] :: r
    else
      match r with
      | [] => [c] :: []
      | g :: gs => (c :: g) :: gs

/-- Python `s.split(",")`: always at least one field, empty fields kept. -/
def splitCommas (s : String) : List String :=
  (splitOnChar ',' s.data).map (fun g => ⟨g⟩)

/-- Python `str.strip()`: drop leading and trailing whitespace. -/
def stripStr (s : String) : String :=
  ⟨((s.data.dropWhile Char.isWhitespace).reverse.dropWhile Char.isWhitespace).reverse⟩

/-! ## Header access (Werkzeug headers are case-insensitive for lookup) -/

/-- `request.headers[name]` / `request.headers.get(name)`: first header whose
name matches case-insensitively. -/
def headerGet? (hs : List (String × String)) (name : String) : Option String :=
  (hs.find? (fun kv => lowerStr kv.1 == lowerStr name)).map (fun kv => kv.2)

/-- `request.headers.get(name, d)`. -/
def headerGetD (hs : List (String × String)) (name d : String) : String :=
  (headerGet? hs name).getD d

/-- `name in request.headers`. -/
def headerHas (hs : List (String × String)) (name : String) : Bool :=
  (headerGet? hs name).isSome

/-! ## utils.py: constant_time_is_equal -/

/-- `utils.constant_time_is_equal`: reject unequal lengths, then OR-fold the
XOR of each byte pair and compare the accumulated result with zero. -/
def constant_time_is_equal (a b : List Nat) : Bool :=
  if a.length ≠ b.length then false
  else ((List.zipWith (fun x y => x ^^^ y) a b).foldl (fun result z => result ||| z) 0) == 0

/-- Python `str.encode()` of a credential or token string, modelled as the
code-point sequence (injective, and identical to UTF-8 on the ASCII strings
compared here; only equality of encodings is ever consumed). -/
def strBytes (s : String) : List Nat :=
  s.data.map Char.toNat

/-! ## Lemmas about constant_time_is_equal -/

theorem nat_or_eq_zero (x y : Nat) : x ||| y = 0 ↔ x = 0 ∧ y = 0 := by
  constructor
  · intro h
    have hb : ∀ i, x.testBit i = false ∧ y.testBit i = false := by
      intro i
      have hc := congrArg (fun n => Nat.testBit n i) h
      simpa [Nat.testBit_lor] using hc
    exact ⟨Nat.eq_of_testBit_eq (fun i => by simp [(hb i).1]),
           Nat.eq_of_testBit_eq (fun i => by simp [(hb i).2])⟩
  · rintro ⟨rfl, rfl⟩
    rfl

theorem foldl_or_eq_zero (l : List Nat) (acc : Nat) :
    (l.foldl (fun result z => result ||| z) acc = 0) ↔ (acc = 0 ∧ ∀ x ∈ l, x = 0) := by
  induction l generalizing acc with
  | nil => simp
  | cons y ys ih =>
    simp only [List.foldl_cons, ih, nat_or_eq_zero, List.mem_cons]
    constructor
    · rintro ⟨⟨h1, h2⟩, h3⟩
      exact ⟨h1, fun x hx => hx.elim (fun e => e ▸ h2) (h3 x)⟩
    · rintro ⟨h1, h2⟩
      exact ⟨⟨h1, h2 y (Or.inl rfl)⟩, fun x hx => h2 x (Or.inr hx)⟩

theorem zipWith_xor_all_zero (a b : List Nat) (hlen : a.length = b.length) :
    (∀ x ∈ List.zipWith (fun x y => x ^^^ y) a b, x = 0) ↔ a = b := by
  induction a generalizing b with
  | nil => cases b <;> simp_all
  | cons x xs ih =>
    cases b with
    | nil => simp at hlen
    | cons y ys =>
      simp only [List.zipWith_cons_cons, List.mem_cons, List.cons.injEq]
      simp only [List.length_cons, Nat.succ.injEq] at hlen
      constructor
      · intro h
        have hx : x ^^^ y = 0 := h _ (Or.inl rfl)
        refine ⟨Nat.xor_eq_zero.mp hx, (ih ys hlen).mp ?_⟩
        intro z hz
        exact h z (Or.inr hz)
      · rintro ⟨rfl, rfl⟩
        intro z hz
        rcases hz with hz | hz
        · simpa [Nat.xor_self] using hz
        · exact ((ih xs rfl).mpr rfl) z hz

theorem constant_time_is_equal_iff (a b : List Nat) :
    constant_time_is_equal a b = true ↔ a = b := by
  unfold constant_time_is_equal
  by_cases hlen : a.length = b.length
  · rw [if_neg (by simp [hlen])]
    rw [beq_iff_eq, foldl_or_eq_zero]
    rw [show ((0 : Nat) = 0 ∧ ∀ x ∈ List.zipWith (fun x y => x ^^^ y) a b, x = 0) ↔
        (∀ x ∈ List.zipWith (fun x y => x ^^^ y) a b, x = 0) from and_iff_right rfl]
    exact zipWith_xor_all_zero a b hlen
  · rw [if_pos (by simpa using hlen)]
    simp only [Bool.false_eq_true, false_iff]
    intro hab
    exact hlen (by rw [hab])

/-! ## Python primitives used by main.py -/

/-- Python list indexing `xs[i]` with negative indices counting from the end,
returning `none` where Python raises `IndexError`. -/
def pyIndex? {α : Type} (xs : List α) (i : Int) : Option α :=
  let j : Int := if i < 0 then i + xs.length else i
  if 0 ≤ j then xs.get? j.toNat else none

/-- Insertion into a Python dict held as an insertion-ordered association
list: an existing key keeps its position and takes the new value, a new key is
appended. -/
def pyDictInsert (d : List (String × String)) (k v : String) : List (String × String) :=
  if d.any (fun kv => kv.1 == k) then
    d.map (fun kv => if kv.1 == k then (kv.1, v) else kv)
  else d ++ [(k, v)]

/-- A Python dict built from a sequence of key-value pairs (later values for
the same key win, first-insertion order kept). -/
def pyDict (l : List (String × String)) : List (String × String) :=
  l.foldl (fun d kv => pyDictInsert d kv.1 kv.2) []

/-- `any(request.path.startswith(path) for path in paths)`. -/
def startsWithAny (p : String) (paths : List String) : Bool :=
  paths.any (fun q => startsWithStr p q)

/-! ## The ipaddress library, abstracted

`ip_address` and `ip_network` come from the Python standard library (not part
of this repository); the handler only needs that each either parses its string
or raises `ValueError`, and a containment test on the parsed values. -/

structure IpParsers (Addr Net : Type) where
  ip_address : String → Option Addr
  ip_network : String → Option Net
  mem : Addr → Net → Bool

/-- One evaluation of the generator element
`ip_address(client_ip) in ip_network(ip_range)`; a failed parse on either side
is Python's `ValueError`. -/
def containsStep {Addr Net : Type} (P : IpParsers Addr Net)
    (client_ip ip_range : String) : Except String Bool :=
  match P.ip_address client_ip with
  | none => Except.error ("ValueError: " ++ client_ip)
  | some a =>
    match P.ip_network ip_range with
    | none => Except.error ("ValueError: " ++ ip_range)
    | some n => Except.ok (P.mem a n)

/-- Python's short-circuiting `any` over a generator whose elements can raise. -/
def anyE {α : Type} (f : α → Except String Bool) : List α → Except String Bool
  | [] => Except.ok false
  | x :: xs =>
    match f x with
    | Except.error e => Except.error e
    | Except.ok true => Except.ok true
    | Except.ok false => anyE f xs

/-- The `ip_in_whitelist` expression of `handle_request`:
`any(... for ip_range in ips) or client_ip in additional_ip_list or
any(... for ip_range in additional_ip_list)`, with Python's left-to-right
short-circuit evaluation and `ValueError` propagation. -/
def ip_in_whitelist_eval {Addr Net : Type} (P : IpParsers Addr Net)
    (client_ip : String) (ips additional_ip_list : List String) : Except String Bool :=
  match anyE (containsStep P client_ip) ips with
  | Except.error e => Except.error e
  | Except.ok true => Except.ok true
  | Except.ok false =>
    if additional_ip_list.contains client_ip then Except.ok true
    else anyE (containsStep P client_ip) additional_ip_list

/-! ## main.py: request classification -/

/-- `protected_paths` after the mutual-exclusion check with `PUBLIC_PATHS`. -/
def effective_protected_paths (cfg : AppSettings) : List String :=
  if !cfg.PUBLIC_PATHS.isEmpty && !cfg.PROTECTED_PATHS.isEmpty then []
  else cfg.PROTECTED_PATHS

/-- `priv_host_list` after the mutual-exclusion check with `PUB_HOST_LIST`. -/
def effective_priv_host_list (cfg : AppSettings) : List String :=
  if !cfg.PRIV_HOST_LIST.isEmpty && !cfg.PUB_HOST_LIST.isEmpty then []
  else cfg.PRIV_HOST_LIST

/-- The `ip_filter_enabled_and_required_for_path` flag of `handle_request`
after the four path/host checks; the source's successive
`if cond: flag = False` assignments are rendered from the last assignment
outwards, which computes the same value. -/
def ip_filter_enabled_and_required_for_path (cfg : AppSettings) (req : Request) : Bool :=
  if !cfg.PUB_HOST_LIST.isEmpty && cfg.PUB_HOST_LIST.contains req.host
     && ((effective_protected_paths cfg).isEmpty
         || !startsWithAny req.path (effective_protected_paths cfg)) then false
  else if !(effective_priv_host_list cfg).isEmpty
          && !(effective_priv_host_list cfg).contains req.host then false
  else if !cfg.PUBLIC_PATHS.isEmpty && startsWithAny req.path cfg.PUBLIC_PATHS then false
  else if !(effective_protected_paths cfg).isEmpty
          && !startsWithAny req.path (effective_protected_paths cfg) then false
  else cfg.IPFILTER_ENABLED

/-! ## main.py: access-control evaluation -/

/-- The `shared_token_ok` list: for each shared token entry, the configured
header must be present and its value bytewise-equal to the configured value
under constant-time comparison. -/
def shared_token_ok_list (hs : List (String × String))
    (shared_tokens : List SharedTokenEntry) : List Bool :=
  shared_tokens.map (fun st =>
    match headerGet? hs st.HeaderName with
    | none => false
    | some v => constant_time_is_equal (strBytes st.Value) (strBytes v))

/-- `verify_credentials`: the request carries HTTP Basic credentials and both
fields match under constant-time comparison. -/
def verify_credentials (authorization : Option (String × String))
    (app_auth : BasicAuthEntry) : Bool :=
  match authorization with
  | none => false
  | some (u, p) =>
    constant_time_is_equal (strBytes app_auth.Username) (strBytes u) &&
    constant_time_is_equal (strBytes app_auth.Password) (strBytes p)

/-- The `on_auth_path_and_ok` list: verification outcomes of the basic-auth
entries whose `Path` equals the forwarded URL, in order. -/
def on_auth_path_and_ok_list (authorization : Option (String × String))
    (basic_auths : List BasicAuthEntry) (forwarded_url : String) : List Bool :=
  (basic_auths.zip (basic_auths.map (verify_credentials authorization))).filterMap
    (fun p => if p.1.Path == forwarded_url then some p.2 else none)

/-- `headers_to_remove` for an enforced request: the lowercased configured
shared-token header names plus the literal connection header name. -/
def headers_to_remove_of (shared_tokens : List SharedTokenEntry) : List String :=
  (shared_tokens.map (fun st => lowerStr st.HeaderName)).dedup ++ ["connection"]

/-- `shared_token_checks_passed := not shared_tokens or any(shared_token_ok)`. -/
def shared_token_checks_passed_b (hs : List (String × String))
    (shared_tokens : List SharedTokenEntry) : Bool :=
  shared_tokens.isEmpty || (shared_token_ok_list hs shared_tokens).any id

/-! ## main.py: proxying -/

/-- `has_request_body`: a content-length header is present or the
transfer-encoding header lowercases to chunked. -/
def has_request_body (hs : List (String × String)) : Bool :=
  headerHas hs "content-length" || lowerStr (headerGetD hs "transfer-encoding" "") == "chunked"

/-- Successive 65536-byte reads, driven by a fuel argument so that the
definition is structurally recursive; each read consumes at least one byte,
so fuel equal to the stream length is enough. -/
def streamChunksAux : Nat → List Nat → List (List Nat)
  | 0, _ => []
  | _, [] => []
  | fuel + 1, b :: bs => ((b :: bs).take 65536) :: streamChunksAux fuel ((b :: bs).drop 65536)

/-- `iter(lambda: request.stream.read(65536), b"")`: successive 65536-byte
reads of the inbound stream until it is exhausted. -/
def streamChunks (bs : List Nat) : List (List Nat) :=
  streamChunksAux bs.length bs

/-- The request body forwarded to the origin: chunked stream reads when the
inbound request has body framing, otherwise no body at all. -/
def request_body_chunks (req : Request) : Option (List (List Nat)) :=
  if has_request_body req.headers then some (streamChunks req.stream) else none

/-- The outbound header dict:
`{k: v for k, v in request.headers if k.lower() not in headers_to_remove}`. -/
def outbound_request_headers (hs : List (String × String))
    (headers_to_remove : List String) : List (String × String) :=
  pyDict (hs.filter (fun kv => !headers_to_remove.contains (lowerStr kv.1)))

/-- The downstream response headers:
`[(k, v) for k, v in origin_response.headers.items() if k.lower() != "connection"]`. -/
def downstream_response_headers (origin_headers : List (String × String)) :
    List (String × String) :=
  origin_headers.filter (fun kv => lowerStr kv.1 != "connection")

/-- The origin-bound request built by `http.request(...)`. -/
structure OriginRequest where
  method : String
  target : String
  headers : List (String × String)
  body : Option (List (List Nat))
deriving DecidableEq, Repr

/-- The observable outcome of `handle_request`. -/
inductive HandleResult where
  | health_ok
  | access_denied (client_ip : String) (reason : String)
  | unauthorized_challenge
  | auth_ok
  | proxied (o : OriginRequest)
  | unhandled_error (msg : String)
deriving DecidableEq, Repr

/-- The `should_request_auth` local of `handle_request`:
`not any_on_auth_path_and_ok and (ip_in_whitelist and shared_token_checks_passed
and len(on_auth_path_and_ok) and all(not ok for ok in on_auth_path_and_ok))`. -/
def should_request_auth_b (hs : List (String × String))
    (authorization : Option (String × String)) (basic_auths : List BasicAuthEntry)
    (forwarded_url : String) (shared_tokens : List SharedTokenEntry)
    (ip_in_whitelist : Bool) : Bool :=
  let on_auth_path_and_ok := on_auth_path_and_ok_list authorization basic_auths forwarded_url
  !on_auth_path_and_ok.any id &&
    (ip_in_whitelist && shared_token_checks_passed_b hs shared_tokens &&
     !on_auth_path_and_ok.isEmpty && on_auth_path_and_ok.all (fun ok => !ok))

/-- The `should_respond_ok_to_auth_request` local of `handle_request`. -/
def should_respond_ok_b (hs : List (String × String))
    (authorization : Option (String × String)) (basic_auths : List BasicAuthEntry)
    (forwarded_url : String) (shared_tokens : List SharedTokenEntry)
    (ip_in_whitelist : Bool) : Bool :=
  let on_auth_path_and_ok := on_auth_path_and_ok_list authorization basic_auths forwarded_url
  on_auth_path_and_ok.any id && ip_in_whitelist &&
    shared_token_checks_passed_b hs shared_tokens && !on_auth_path_and_ok.isEmpty

/-- The `all_checks_passed` local: ip whitelist, shared tokens and
`basic_auth_checks_passed := not any(basic_auths) or any(basic_auths_ok)`. -/
def all_checks_passed_b (hs : List (String × String))
    (authorization : Option (String × String)) (basic_auths : List BasicAuthEntry)
    (shared_tokens : List SharedTokenEntry) (ip_in_whitelist : Bool) : Bool :=
  ip_in_whitelist && shared_token_checks_passed_b hs shared_tokens &&
    (basic_auths.isEmpty || (basic_auths.map (verify_credentials authorization)).any id)

/-- The outcome of the `get_ipfilter_config` call made for this request. -/
inductive ConfigFetch where
  | ok (rules : IpFilterRules)
  | validation_error (msg : String)
  | other_error (msg : String)
deriving DecidableEq, Repr

/-- Fall through to the origin request at the bottom of `handle_request`. -/
def proxy_to_origin (req : Request) (headers_to_remove : List String) : HandleResult :=
  HandleResult.proxied
    { method := req.method
      target := req.full_path
      headers := outbound_request_headers req.headers headers_to_remove
      body := request_body_chunks req }

/-- The body of the `if ip_filter_enabled_and_required_for_path:` block of
`handle_request`, given the outcome of the `get_ipfilter_config` call. -/
def enforcement_result {Addr Net : Type} (P : IpParsers Addr Net) (cfg : AppSettings)
    (fetch : ConfigFetch) (req : Request) (client_ip : String) : HandleResult :=
  match fetch with
  | ConfigFetch.validation_error _ => HandleResult.access_denied client_ip ""
  | ConfigFetch.other_error msg => HandleResult.access_denied client_ip msg
  | ConfigFetch.ok rules =>
    match ip_in_whitelist_eval P client_ip rules.ips cfg.ADDITIONAL_IP_LIST with
    | Except.error e => HandleResult.unhandled_error e
    | Except.ok ip_in_whitelist =>
      if should_request_auth_b req.headers req.authorization rules.auth req.path
           rules.shared_tokens ip_in_whitelist then
        HandleResult.unauthorized_challenge
      else if should_respond_ok_b req.headers req.authorization rules.auth req.path
           rules.shared_tokens ip_in_whitelist then
        HandleResult.auth_ok
      else if !all_checks_passed_b req.headers req.authorization rules.auth
           rules.shared_tokens ip_in_whitelist then
        HandleResult.access_denied client_ip ""
      else proxy_to_origin req (headers_to_remove_of rules.shared_tokens)

/-- `handle_request` (main.py): X-Forwarded-For handling, classification,
optional enforcement, and the fall-through proxy call. -/
def handle_request {Addr Net : Type} (P : IpParsers Addr Net) (cfg : AppSettings)
    (fetch : ConfigFetch) (req : Request) : HandleResult :=
  match headerGet? req.headers "X-Forwarded-For" with
  | none =>
    if startsWithStr (headerGetD req.headers "user-agent" "") "ELB-HealthChecker"
    then HandleResult.health_ok
    else HandleResult.access_denied "Unknown" ""
  | some x_forwarded_for =>
    match pyIndex? (splitCommas x_forwarded_for) cfg.IP_DETERMINED_BY_X_FORWARDED_FOR_INDEX with
    | none => HandleResult.access_denied "Unknown" ""
    | some raw =>
      let client_ip := stripStr raw
      if ip_filter_enabled_and_required_for_path cfg req
      then enforcement_result P cfg fetch req client_ip
      else proxy_to_origin req []

/-! ## config.py: policy fetch, validation and merging -/

/-- A raw policy document after YAML parsing, with each recognized optional
section defaulted to the empty list (`config.get(key, [])`); unrecognized
top-level keys carry no data in this typed embedding. -/
structure PolicyDoc where
  IpRanges : List String
  BasicAuth : List BasicAuthEntry
  SharedTokens : List SharedTokenEntry
deriving DecidableEq, Repr

/-- Modelled from the spec: `APPCONFIG_SCHEMA.validate` delegates to the
external `schema` library, which is not part of src/. Typed fields cannot be
ill-typed in this embedding, so the checkable schema constraint is that every
`IpRanges` entry parses as an IPv4/IPv6 network with host bits clear
(abstracted by `ip_network_ok`); on failure the resulting `SchemaError`
message names the offending key, as the library does. -/
def schema_validate (ip_network_ok : String → Bool) (config : PolicyDoc) :
    Except String Unit :=
  match config.IpRanges.find? (fun r => !ip_network_ok r) with
  | some r =>
    Except.error ("Key IpRanges error: ip_network(" ++ r ++ ") raised ValueError")
  | none => Except.ok ()

/-- The loop body of `get_ipfilter_config`: validate each fetched document in
order, extending the three accumulator lists, and raise `ValidationError` at
the first schema failure. -/
def get_ipfilter_config_go (fetch : String → PolicyDoc) (ip_network_ok : String → Bool) :
    List String → IpFilterRules → Except String IpFilterRules
  | [], acc => Except.ok acc
  | config_path :: rest, acc =>
    let config := fetch config_path
    match schema_validate ip_network_ok config with
    | Except.error ex =>
      Except.error ("AppConfig validation error: \"" ++ ex ++ "\" for path " ++ config_path)
    | Except.ok _ =>
      get_ipfilter_config_go fetch ip_network_ok rest
        { ips := acc.ips ++ config.IpRanges
          auth := acc.auth ++ config.BasicAuth
          shared_tokens := acc.shared_tokens ++ config.SharedTokens }

/-- `get_ipfilter_config` (config.py), with the per-profile fetch from the
AppConfig agent abstracted as a function. -/
def get_ipfilter_config (fetch : String → PolicyDoc) (ip_network_ok : String → Bool)
    (appconfig_paths : List String) : Except String IpFilterRules :=
  get_ipfilter_config_go fetch ip_network_ok appconfig_paths
    { ips := [], auth := [], shared_tokens := [] }

/-! ## config.py: Environ -/

/-- A value reachable through `Environ.get_value`: entries of os.environ are
strings, while a declared default may instead be a Python bool. -/
inductive PyVal where
  | str (s : String)
  | bool (b : Bool)
deriving DecidableEq, Repr

/-- Association-list lookup standing for `key in self.data` / `self.data[key]`. -/
def envLookup (data : List (String × String)) (key : String) : Option String :=
  (data.find? (fun kv => kv.1 == key)).map (fun kv => kv.2)

/-- `Environ.get_value`: under `allow_environment_override` the key prefixed
with the uppercased `COPILOT_ENVIRONMENT_NAME` wins, then the plain key, then
the declared default; a missing `COPILOT_ENVIRONMENT_NAME`, or a missing key
without default, raises `KeyError`. -/
def environ_get_value (data : List (String × String)) (key : String)
    (default? : Option PyVal) (allow_environment_override : Bool) : Except String PyVal :=
  match envLookup data "COPILOT_ENVIRONMENT_NAME" with
  | none => Except.error "KeyError: COPILOT_ENVIRONMENT_NAME"
  | some env_name =>
    let environment := upperStr env_name
    let overridden_key := upperStr environment ++ "_" ++ key
    if allow_environment_override && (envLookup data overridden_key).isSome then
      Except.ok (PyVal.str ((envLookup data overridden_key).getD ""))
    else if (envLookup data key).isSome then
      Except.ok (PyVal.str ((envLookup data key).getD ""))
    else
      match default? with
      | some d => Except.ok d
      | none => Except.error (key ++ " not found")

/-- `Environ.bool`: a string value is converted with
`value.strip().lower() == "true"`; a non-string (bool default) is returned
unchanged. -/
def environ_bool (data : List (String × String)) (key : String)
    (default? : Option Bool) (allow_environment_override : Bool) : Except String Bool :=
  match environ_get_value data key (default?.map PyVal.bool) allow_environment_override with
  | Except.error e => Except.error e
  | Except.ok (PyVal.str v) => Except.ok (lowerStr (stripStr v) == "true")
  | Except.ok (PyVal.bool b) => Except.ok b

/-! ## Spec-side definitions used for refinement comparison -/

/-- The bypass condition exactly as the spec phrases it, to be compared with
the computed `ip_filter_enabled_and_required_for_path` flag. -/
def bypass_conditions_spec (cfg : AppSettings) (req : Request) : Prop :=
  cfg.IPFILTER_ENABLED = false ∨
  (∃ q ∈ cfg.PUBLIC_PATHS, startsWithStr req.path q = true) ∨
  (effective_protected_paths cfg ≠ [] ∧
    ∀ q ∈ effective_protected_paths cfg, startsWithStr req.path q = false) ∨
  (req.host ∈ cfg.PUB_HOST_LIST ∧
    (effective_protected_paths cfg = [] ∨
      ∀ q ∈ effective_protected_paths cfg, startsWithStr req.path q = false)) ∨
  (effective_priv_host_list cfg ≠ [] ∧ req.host ∉ effective_priv_host_list cfg)

/-- The settings record with both conflict-resolution rules applied. -/
def resolve_conflicts (cfg : AppSettings) : AppSettings :=
  { cfg with
    PROTECTED_PATHS := effective_protected_paths cfg
    PRIV_HOST_LIST := effective_priv_host_list cfg }

/-! ## Concrete sample values, used in closed instances of the theorems -/

/-- Parsers for closed evaluations: an address is any nonempty string, a
network is any string other than "bad", and an address is a member of the
network spelled address/32. -/
def sampleParsers : IpParsers String String :=
  { ip_address := fun s => if s == "" then none else some s
    ip_network := fun s => if s == "bad" then none else some s
    mem := fun a n => n == (a ++ "/32") }

def cfgEnforce : AppSettings :=
  { IPFILTER_ENABLED := true
    IP_DETERMINED_BY_X_FORWARDED_FOR_INDEX := -2
    PROTECTED_PATHS := []
    PUBLIC_PATHS := []
    PRIV_HOST_LIST := []
    PUB_HOST_LIST := []
    ADDITIONAL_IP_LIST := [] }

def cfgOff : AppSettings :=
  { cfgEnforce with IPFILTER_ENABLED := false }

def sampleRules : IpFilterRules :=
  { ips := ["1.2.3.4/32"]
    auth := [{ Path := "/__some_path", Username := "my-user", Password := "my-secret" }]
    shared_tokens := [] }

/-- A request with an X-Forwarded-For whose second-from-right entry is
1.2.3.4, a Connection header, and no body framing. -/
def sampleReq (p : String) (auth : Option (String × String)) : Request :=
  { path := p
    host := "h"
    method := "GET"
    full_path := p ++ "?"
    headers := [("X-Forwarded-For", "9.9.9.9, 1.2.3.4, 0.0.0.0"), ("Connection", "close")]
    authorization := auth
    stream := [] }

/-! ## Claim theorems -/

/-- Claim C7: `constant_time_is_equal` returns true exactly on equal byte
strings, and on equal-length inputs it is computed as the OR-fold of the
bytewise XORs compared with zero, inspecting every position rather than
short-circuiting at the first differing byte. -/
theorem claim_C7_constant_time (a b : List Nat) :
    (constant_time_is_equal a b = true ↔ a = b) ∧
    (a.length = b.length →
      constant_time_is_equal a b =
        (((List.zipWith (fun x y => x ^^^ y) a b).foldl (fun result z => result ||| z) 0) == 0)) := by
  refine ⟨constant_time_is_equal_iff a b, fun hlen => ?_⟩
  unfold constant_time_is_equal
  rw [if_neg (by simp [hlen])]

theorem claim_C7_witness :
    ([3, 7] : List Nat).length = ([3, 9] : List Nat).length ∧
    constant_time_is_equal [3, 7] [3, 9] =
      (((List.zipWith (fun x y => x ^^^ y) ([3, 7] : List Nat) [3, 9]).foldl
          (fun result z => result ||| z) 0) == 0) :=
  ⟨by decide, (claim_C7_constant_time [3, 7] [3, 9]).2 (by decide)⟩

/-- Claim C8: when the X-Forwarded-For header is missing, the handler answers
200 OK if the user agent starts with ELB-HealthChecker and otherwise renders
the 403 denial page for client "Unknown"; in both cases the origin is never
contacted. -/
theorem claim_C8_missing_xff {Addr Net : Type} (P : IpParsers Addr Net)
    (cfg : AppSettings) (fetch : ConfigFetch) (req : Request)
    (hxff : headerGet? req.headers "X-Forwarded-For" = none) :
    handle_request P cfg fetch req =
      (if startsWithStr (headerGetD req.headers "user-agent" "") "ELB-HealthChecker"
       then HandleResult.health_ok
       else HandleResult.access_denied "Unknown" "") ∧
    ∀ o : OriginRequest, handle_request P cfg fetch req ≠ HandleResult.proxied o := by
  have h1 : handle_request P cfg fetch req =
      (if startsWithStr (headerGetD req.headers "user-agent" "") "ELB-HealthChecker"
       then HandleResult.health_ok
       else HandleResult.access_denied "Unknown" "") := by
    unfold handle_request
    rw [hxff]
  refine ⟨h1, fun o => ?_⟩
  rw [h1]
  by_cases hua : startsWithStr (headerGetD req.headers "user-agent" "") "ELB-HealthChecker" <;>
    simp [hua]

theorem claim_C8_witness :
    headerGet? [("user-agent", "ELB-HealthChecker/2.0")] "X-Forwarded-For" = none ∧
    handle_request sampleParsers cfgEnforce (ConfigFetch.ok sampleRules)
      { path := "/", host := "h", method := "GET", full_path := "/?",
        headers := [("user-agent", "ELB-HealthChecker/2.0")], authorization := none,
        stream := [] } =
      (if startsWithStr
            (headerGetD [("user-agent", "ELB-HealthChecker/2.0")] "user-agent" "")
            "ELB-HealthChecker"
       then HandleResult.health_ok
       else HandleResult.access_denied "Unknown" "") :=
  ⟨by decide,
   (claim_C8_missing_xff sampleParsers cfgEnforce (ConfigFetch.ok sampleRules)
      { path := "/", host := "h", method := "GET", full_path := "/?",
        headers := [("user-agent", "ELB-HealthChecker/2.0")], authorization := none,
        stream := [] } (by decide)).1⟩

/-- Claim C6 counterexample: the string "banana" is neither of the literals
"True" and "False", yet `Environ.bool` succeeds and returns False instead of
failing at startup. -/
theorem claim_C6_counterexample :
    environ_bool [("COPILOT_ENVIRONMENT_NAME", "test"), ("IPFILTER_ENABLED", "banana")]
      "IPFILTER_ENABLED" none false = Except.ok false := by rfl

/-- Claim C6 (amended): a malformed boolean string does not make the config
loader fail; whenever the lookup produces a string value v, `Environ.bool`
returns the boolean `v.strip().lower() == "true"`, so every string other than
a case-insensitive trimmed "true" silently yields False. -/
theorem claim_C6_bool_parsing (data : List (String × String)) (key v : String)
    (default? : Option Bool) (ov : Bool)
    (hv : environ_get_value data key (default?.map PyVal.bool) ov = Except.ok (PyVal.str v)) :
    environ_bool data key default? ov = Except.ok (lowerStr (stripStr v) == "true") := by
  unfold environ_bool
  rw [hv]

theorem claim_C6_witness :
    environ_get_value [("COPILOT_ENVIRONMENT_NAME", "t"), ("K", " TrUe ")] "K"
      ((none : Option Bool).map PyVal.bool) false = Except.ok (PyVal.str " TrUe ") ∧
    environ_bool [("COPILOT_ENVIRONMENT_NAME", "t"), ("K", " TrUe ")] "K" none false =
      Except.ok (lowerStr (stripStr " TrUe ") == "true") :=
  ⟨by rfl, claim_C6_bool_parsing _ "K" " TrUe " none false (by rfl)⟩

theorem get_ipfilter_config_go_ok (fetch : String → PolicyDoc) (nok : String → Bool)
    (paths : List String) (acc : IpFilterRules)
    (hall : ∀ p ∈ paths, schema_validate nok (fetch p) = Except.ok ()) :
    get_ipfilter_config_go fetch nok paths acc =
      Except.ok
        { ips := acc.ips ++ (paths.map (fun p => (fetch p).IpRanges)).flatten
          auth := acc.auth ++ (paths.map (fun p => (fetch p).BasicAuth)).flatten
          shared_tokens :=
            acc.shared_tokens ++ (paths.map (fun p => (fetch p).SharedTokens)).flatten } := by
  induction paths generalizing acc with
  | nil => simp [get_ipfilter_config_go]
  | cons p ps ih =>
    have hp := hall p (by simp)
    simp only [get_ipfilter_config_go, hp]
    rw [ih _ (fun q hq => hall q (by simp [hq]))]
    simp [List.append_assoc]

theorem get_ipfilter_config_go_err (fetch : String → PolicyDoc) (nok : String → Bool)
    (pre : List String) (p : String) (post : List String) (e : String) (acc : IpFilterRules)
    (hpre : ∀ q ∈ pre, schema_validate nok (fetch q) = Except.ok ())
    (hp : schema_validate nok (fetch p) = Except.error e) :
    get_ipfilter_config_go fetch nok (pre ++ p :: post) acc =
      Except.error ("AppConfig validation error: \"" ++ e ++ "\" for path " ++ p) := by
  induction pre generalizing acc with
  | nil =>
    rw [List.nil_append]
    simp only [get_ipfilter_config_go, hp]
  | cons q qs ih =>
    have hq := hpre q (by simp)
    rw [List.cons_append]
    simp only [get_ipfilter_config_go, hq]
    exact ih _ (fun r hr => hpre r (by simp [hr]))

/-- Claim C5: `get_ipfilter_config` walks the profile ids in declared order;
if every fetched document validates, it returns the three lists concatenated
across profiles in order, and at the first validation failure it raises a
`ValidationError` whose message embeds the schema message (which names the
offending key) and the offending profile id, returning no result. -/
theorem claim_C5_policy_merge (fetch : String → PolicyDoc) (ip_network_ok : String → Bool)
    (profile_ids : List String) :
    ((∀ p ∈ profile_ids, schema_validate ip_network_ok (fetch p) = Except.ok ()) →
      get_ipfilter_config fetch ip_network_ok profile_ids =
        Except.ok
          { ips := (profile_ids.map (fun p => (fetch p).IpRanges)).flatten
            auth := (profile_ids.map (fun p => (fetch p).BasicAuth)).flatten
            shared_tokens := (profile_ids.map (fun p => (fetch p).SharedTokens)).flatten }) ∧
    (∀ pre p post e, profile_ids = pre ++ p :: post →
      (∀ q ∈ pre, schema_validate ip_network_ok (fetch q) = Except.ok ()) →
      schema_validate ip_network_ok (fetch p) = Except.error e →
      get_ipfilter_config fetch ip_network_ok profile_ids =
        Except.error ("AppConfig validation error: \"" ++ e ++ "\" for path " ++ p)) := by
  constructor
  · intro hall
    unfold get_ipfilter_config
    rw [get_ipfilter_config_go_ok fetch ip_network_ok profile_ids _ hall]
    simp
  · rintro pre p post e rfl hpre hp
    unfold get_ipfilter_config
    exact get_ipfilter_config_go_err fetch ip_network_ok pre p post e _ hpre hp

/-- A two-profile fetch map for closed evaluations of the policy merge. -/
def sampleFetch (p : String) : PolicyDoc :=
  if p == "a" then
    { IpRanges := ["1.1.1.1/32"]
      BasicAuth := [{ Path := "/p", Username := "u", Password := "w" }]
      SharedTokens := [] }
  else
    { IpRanges := ["2.2.2.2/32"]
      BasicAuth := []
      SharedTokens := [{ HeaderName := "x-cdn-secret", Value := "v" }] }

def sampleNetOk (s : String) : Bool := s != "bad"

/-! ## Classification lemmas -/

theorem contains_iff_mem (l : List String) (x : String) : l.contains x = true ↔ x ∈ l :=
  List.elem_iff

theorem contains_false_iff (l : List String) (x : String) : l.contains x = false ↔ x ∉ l := by
  rw [← contains_iff_mem]
  cases l.contains x <;> simp

theorem isEmpty_false_iff {α : Type} (l : List α) : l.isEmpty = false ↔ l ≠ [] := by
  cases l <;> simp

theorem chain_flag (e0 c1 c2 c3 c4 : Bool) :
    ((if c4 then false else
      if c3 then false else
      if c2 then false else
      if c1 then false else e0) = false) ↔
      (e0 = false ∨ c1 = true ∨ c2 = true ∨ c3 = true ∨ c4 = true) := by
  cases e0 <;> cases c1 <;> cases c2 <;> cases c3 <;> cases c4 <;> simp

theorem cond_protected_iff (cfg : AppSettings) (req : Request) :
    ((!(effective_protected_paths cfg).isEmpty
        && !startsWithAny req.path (effective_protected_paths cfg)) = true) ↔
      (effective_protected_paths cfg ≠ [] ∧
        ∀ q ∈ effective_protected_paths cfg, startsWithStr req.path q = false) := by
  simp [startsWithAny, List.any_eq_true, List.isEmpty_iff]

theorem cond_public_iff (cfg : AppSettings) (req : Request) :
    ((!cfg.PUBLIC_PATHS.isEmpty && startsWithAny req.path cfg.PUBLIC_PATHS) = true) ↔
      (∃ q ∈ cfg.PUBLIC_PATHS, startsWithStr req.path q = true) := by
  simp only [startsWithAny, Bool.and_eq_true, Bool.not_eq_true', List.isEmpty_iff,
    List.any_eq_true]
  constructor
  · rintro ⟨-, h⟩
    exact h
  · rintro ⟨q, hq, hs⟩
    exact ⟨by simpa [List.isEmpty_iff] using List.ne_nil_of_mem hq, q, hq, hs⟩

theorem cond_priv_iff (cfg : AppSettings) (req : Request) :
    ((!(effective_priv_host_list cfg).isEmpty
        && !(effective_priv_host_list cfg).contains req.host) = true) ↔
      (effective_priv_host_list cfg ≠ [] ∧ req.host ∉ effective_priv_host_list cfg) := by
  simp only [Bool.and_eq_true, Bool.not_eq_true', isEmpty_false_iff, contains_false_iff]

theorem cond_pub_host_iff (cfg : AppSettings) (req : Request) :
    ((!cfg.PUB_HOST_LIST.isEmpty && cfg.PUB_HOST_LIST.contains req.host
        && ((effective_protected_paths cfg).isEmpty
            || !startsWithAny req.path (effective_protected_paths cfg))) = true) ↔
      (req.host ∈ cfg.PUB_HOST_LIST ∧
        (effective_protected_paths cfg = [] ∨
          ∀ q ∈ effective_protected_paths cfg, startsWithStr req.path q = false)) := by
  simp only [startsWithAny, Bool.and_eq_true, Bool.or_eq_true, Bool.not_eq_true',
    List.isEmpty_iff, contains_iff_mem, List.any_eq_true, List.any_eq_false]
  constructor
  · rintro ⟨⟨-, hmem⟩, hp⟩
    refine ⟨hmem, ?_⟩
    rcases hp with hp | hp
    · exact Or.inl hp
    · exact Or.inr (by simpa using hp)
  · rintro ⟨hmem, hp⟩
    refine ⟨⟨by simpa [List.isEmpty_iff] using List.ne_nil_of_mem hmem, hmem⟩, ?_⟩
    rcases hp with hp | hp
    · exact Or.inl hp
    · exact Or.inr (by simpa using hp)

theorem flag_false_iff (cfg : AppSettings) (req : Request) :
    ip_filter_enabled_and_required_for_path cfg req = false ↔
      bypass_conditions_spec cfg req := by
  unfold ip_filter_enabled_and_required_for_path
  rw [chain_flag]
  rw [cond_protected_iff, cond_public_iff, cond_priv_iff, cond_pub_host_iff]
  unfold bypass_conditions_spec
  constructor
  · rintro (h | h | h | h | h)
    · exact Or.inl h
    · exact Or.inr (Or.inr (Or.inl h))
    · exact Or.inr (Or.inl h)
    · exact Or.inr (Or.inr (Or.inr (Or.inr h)))
    · exact Or.inr (Or.inr (Or.inr (Or.inl h)))
  · rintro (h | h | h | h | h)
    · exact Or.inl h
    · exact Or.inr (Or.inr (Or.inl h))
    · exact Or.inr (Or.inl h)
    · exact Or.inr (Or.inr (Or.inr (Or.inr h)))
    · exact Or.inr (Or.inr (Or.inr (Or.inl h)))

theorem any_id_eq_false_of_all_not (l : List Bool) (h : l.all (fun ok => !ok) = true) :
    l.any id = false := by
  induction l with
  | nil => rfl
  | cons b bs ih =>
    simp only [List.all_cons, Bool.and_eq_true, Bool.not_eq_true'] at h
    simp [List.any_cons, h.1, ih h.2]

theorem should_request_auth_iff (hs : List (String × String))
    (authorization : Option (String × String)) (basic_auths : List BasicAuthEntry)
    (forwarded_url : String) (shared_tokens : List SharedTokenEntry) (w : Bool) :
    should_request_auth_b hs authorization basic_auths forwarded_url shared_tokens w = true ↔
      (w = true ∧ shared_token_checks_passed_b hs shared_tokens = true ∧
       on_auth_path_and_ok_list authorization basic_auths forwarded_url ≠ [] ∧
       (on_auth_path_and_ok_list authorization basic_auths forwarded_url).all
         (fun ok => !ok) = true) := by
  unfold should_request_auth_b
  simp only [Bool.and_eq_true, Bool.not_eq_true']
  constructor
  · rintro ⟨hany, ⟨⟨hw, hst⟩, hne⟩, hall⟩
    exact ⟨hw, hst, (isEmpty_false_iff _).mp hne, hall⟩
  · rintro ⟨hw, hst, hne, hall⟩
    exact ⟨any_id_eq_false_of_all_not _ hall, ⟨⟨hw, hst⟩, (isEmpty_false_iff _).mpr hne⟩, hall⟩

/-- Claim C2: the handler answers with the 401 basic-auth challenge exactly
when the request is enforced, the policy fetch succeeded, the client IP is in
the whitelist, the shared-token checks passed, and the request path equals the
Path of at least one configured basic-auth entry while no entry for that path
matched the supplied credentials; in every other situation no challenge is
returned. -/
theorem claim_C2_challenge {Addr Net : Type} (P : IpParsers Addr Net) (cfg : AppSettings)
    (fetch : ConfigFetch) (req : Request) :
    handle_request P cfg fetch req = HandleResult.unauthorized_challenge ↔
    (∃ x raw rules,
      headerGet? req.headers "X-Forwarded-For" = some x ∧
      pyIndex? (splitCommas x) cfg.IP_DETERMINED_BY_X_FORWARDED_FOR_INDEX = some raw ∧
      ip_filter_enabled_and_required_for_path cfg req = true ∧
      fetch = ConfigFetch.ok rules ∧
      ip_in_whitelist_eval P (stripStr raw) rules.ips cfg.ADDITIONAL_IP_LIST =
        Except.ok true ∧
      shared_token_checks_passed_b req.headers rules.shared_tokens = true ∧
      on_auth_path_and_ok_list req.authorization rules.auth req.path ≠ [] ∧
      (on_auth_path_and_ok_list req.authorization rules.auth req.path).all
        (fun ok => !ok) = true) := by
  constructor
  · intro h
    unfold handle_request at h
    cases hx : headerGet? req.headers "X-Forwarded-For" with
    | none =>
      simp only [hx] at h
      by_cases hua : startsWithStr (headerGetD req.headers "user-agent" "")
          "ELB-HealthChecker" = true
      · rw [if_pos hua] at h
        exact absurd h (by simp)
      · rw [if_neg hua] at h
        exact absurd h (by simp)
    | some x =>
      simp only [hx] at h
      cases hi : pyIndex? (splitCommas x) cfg.IP_DETERMINED_BY_X_FORWARDED_FOR_INDEX with
      | none =>
        simp only [hi] at h
        exact absurd h (by simp)
      | some raw =>
        simp only [hi] at h
        by_cases hflag : ip_filter_enabled_and_required_for_path cfg req = true
        case neg =>
          rw [if_neg hflag] at h
          exact absurd h (by simp [proxy_to_origin])
        case pos =>
          rw [if_pos hflag] at h
          unfold enforcement_result at h
          cases hfe : fetch with
          | validation_error m =>
            simp only [hfe] at h
            exact absurd h (by simp)
          | other_error m =>
            simp only [hfe] at h
            exact absurd h (by simp)
          | ok rules =>
            simp only [hfe] at h
            cases hip : ip_in_whitelist_eval P (stripStr raw) rules.ips
                cfg.ADDITIONAL_IP_LIST with
            | error e =>
              simp only [hip] at h
              exact absurd h (by simp)
            | ok w =>
              simp only [hip] at h
              by_cases hsra : should_request_auth_b req.headers req.authorization
                  rules.auth req.path rules.shared_tokens w = true
              case pos =>
                rcases (should_request_auth_iff _ _ _ _ _ _).mp hsra with
                  ⟨hw, hst, hne, hall⟩
                subst hw
                exact ⟨x, raw, rules, rfl, hi, hflag, rfl, hip, hst, hne, hall⟩
              case neg =>
                rw [if_neg hsra] at h
                by_cases h2 : should_respond_ok_b req.headers req.authorization
                    rules.auth req.path rules.shared_tokens w = true
                · rw [if_pos h2] at h
                  exact absurd h (by simp)
                · rw [if_neg h2] at h
                  by_cases h3 : (!all_checks_passed_b req.headers req.authorization
                      rules.auth rules.shared_tokens w) = true
                  · rw [if_pos h3] at h
                    exact absurd h (by simp)
                  · rw [if_neg h3] at h
                    exact absurd h (by simp [proxy_to_origin])
  · rintro ⟨x, raw, rules, hx, hi, hflag, rfl, hip, hst, hne, hall⟩
    unfold handle_request
    simp only [hx, hi, hflag]
    simp only [if_true]
    unfold enforcement_result
    simp only [hip]
    rw [if_pos ((should_request_auth_iff _ _ _ _ _ _).mpr ⟨rfl, hst, hne, hall⟩)]

/-- Claim C3: for every inbound request with a well-formed X-Forwarded-For,
the computed enforcement flag is false exactly under the bypass disjunction of
the spec; a false flag sends the request directly to the origin with an empty
header deny-list, and a true flag hands the request to the access-control
evaluation block. -/
theorem claim_C3_bypass {Addr Net : Type} (P : IpParsers Addr Net) (cfg : AppSettings)
    (fetch : ConfigFetch) (req : Request) (x raw : String)
    (hx : headerGet? req.headers "X-Forwarded-For" = some x)
    (hi : pyIndex? (splitCommas x) cfg.IP_DETERMINED_BY_X_FORWARDED_FOR_INDEX = some raw) :
    (ip_filter_enabled_and_required_for_path cfg req = false ↔
      bypass_conditions_spec cfg req) ∧
    (ip_filter_enabled_and_required_for_path cfg req = false →
      handle_request P cfg fetch req = proxy_to_origin req []) ∧
    (ip_filter_enabled_and_required_for_path cfg req = true →
      handle_request P cfg fetch req = enforcement_result P cfg fetch req (stripStr raw)) := by
  refine ⟨flag_false_iff cfg req, fun hf => ?_, fun ht => ?_⟩
  · unfold handle_request
    simp only [hx, hi, hf]
    simp
  · unfold handle_request
    simp only [hx, hi, ht]
    simp

theorem claim_C3_witness :
    headerGet? (sampleReq "/" none).headers "X-Forwarded-For" =
      some "9.9.9.9, 1.2.3.4, 0.0.0.0" ∧
    pyIndex? (splitCommas "9.9.9.9, 1.2.3.4, 0.0.0.0")
      cfgOff.IP_DETERMINED_BY_X_FORWARDED_FOR_INDEX = some " 1.2.3.4" ∧
    (ip_filter_enabled_and_required_for_path cfgOff (sampleReq "/" none) = false ↔
      bypass_conditions_spec cfgOff (sampleReq "/" none)) :=
  ⟨by decide, by decide,
   (claim_C3_bypass sampleParsers cfgOff (ConfigFetch.ok sampleRules) (sampleReq "/" none)
      "9.9.9.9, 1.2.3.4, 0.0.0.0" " 1.2.3.4" (by decide) (by decide)).1⟩

/-! ## Header-dictionary lemmas -/

theorem pyDictInsert_keys (d : List (String × String)) (k v x : String)
    (h : x ∈ (pyDictInsert d k v).map Prod.fst) : x ∈ d.map Prod.fst ∨ x = k := by
  unfold pyDictInsert at h
  by_cases hc : d.any (fun kv => kv.1 == k)
  · rw [if_pos hc] at h
    rcases List.mem_map.mp h with ⟨kv, hkv, hfst⟩
    rcases List.mem_map.mp hkv with ⟨kv0, hkv0, heq⟩
    have hk0 : kv0.1 ∈ d.map Prod.fst := List.mem_map_of_mem Prod.fst hkv0
    by_cases he : kv0.1 == k
    · rw [if_pos he] at heq
      left
      rw [← hfst, ← heq]
      simpa using hk0
    · rw [if_neg he] at heq
      left
      rw [← hfst, ← heq]
      exact hk0
  · rw [if_neg hc] at h
    rw [List.map_append, List.mem_append] at h
    rcases h with h | h
    · exact Or.inl h
    · right
      simpa using h

theorem pyDict_foldl_keys (l d : List (String × String)) (kv : String × String)
    (h : kv ∈ l.foldl (fun d kv => pyDictInsert d kv.1 kv.2) d) :
    kv.1 ∈ d.map Prod.fst ∨ kv.1 ∈ l.map Prod.fst := by
  induction l generalizing d with
  | nil =>
    exact Or.inl (List.mem_map_of_mem Prod.fst h)
  | cons a as ih =>
    simp only [List.foldl_cons] at h
    rcases ih _ h with hd | hl
    · rcases pyDictInsert_keys d a.1 a.2 kv.1 hd with hd | hd
      · exact Or.inl hd
      · right
        simp [hd]
    · right
      simp [hl]

theorem pyDict_keys (l : List (String × String)) (kv : String × String)
    (h : kv ∈ pyDict l) : kv.1 ∈ l.map Prod.fst := by
  rcases pyDict_foldl_keys l [] kv h with hd | hl
  · simp at hd
  · exact hl

theorem outbound_request_headers_not_removed (hs : List (String × String))
    (headers_to_remove : List String) (kv : String × String)
    (h : kv ∈ outbound_request_headers hs headers_to_remove) :
    headers_to_remove.contains (lowerStr kv.1) = false := by
  unfold outbound_request_headers at h
  have hk := pyDict_keys _ _ h
  rcases List.mem_map.mp hk with ⟨kv0, hmem, hfst⟩
  have hp := (List.mem_filter.mp hmem).2
  rw [← hfst]
  simpa using hp

theorem downstream_mem_iff (origin_headers : List (String × String))
    (kv : String × String) :
    kv ∈ downstream_response_headers origin_headers ↔
      kv ∈ origin_headers ∧ lowerStr kv.1 ≠ "connection" := by
  unfold downstream_response_headers
  rw [List.mem_filter]
  simp

/-- Every result `HandleResult.proxied o` of the handler is the fall-through
origin request, with the deny-list empty on the bypass path and the
shared-token deny-list on the enforced path. -/
theorem handle_request_proxied_shape {Addr Net : Type} (P : IpParsers Addr Net)
    (cfg : AppSettings) (fetch : ConfigFetch) (req : Request) (o : OriginRequest)
    (hp : handle_request P cfg fetch req = HandleResult.proxied o) :
    (ip_filter_enabled_and_required_for_path cfg req = false ∧
      o = { method := req.method, target := req.full_path,
            headers := outbound_request_headers req.headers [],
            body := request_body_chunks req }) ∨
    (ip_filter_enabled_and_required_for_path cfg req = true ∧
      ∃ rules, fetch = ConfigFetch.ok rules ∧
        o = { method := req.method, target := req.full_path,
              headers := outbound_request_headers req.headers
                (headers_to_remove_of rules.shared_tokens),
              body := request_body_chunks req }) := by
  unfold handle_request at hp
  cases hx : headerGet? req.headers "X-Forwarded-For" with
  | none =>
    simp only [hx] at hp
    by_cases hua : startsWithStr (headerGetD req.headers "user-agent" "")
        "ELB-HealthChecker" = true
    · rw [if_pos hua] at hp
      exact absurd hp (by simp)
    · rw [if_neg hua] at hp
      exact absurd hp (by simp)
  | some x =>
    simp only [hx] at hp
    cases hi : pyIndex? (splitCommas x) cfg.IP_DETERMINED_BY_X_FORWARDED_FOR_INDEX with
    | none =>
      simp only [hi] at hp
      exact absurd hp (by simp)
    | some raw =>
      simp only [hi] at hp
      by_cases hflag : ip_filter_enabled_and_required_for_path cfg req = true
      case neg =>
        rw [if_neg hflag] at hp
        left
        refine ⟨by simpa using hflag, ?_⟩
        unfold proxy_to_origin at hp
        exact (HandleResult.proxied.inj hp).symm
      case pos =>
        rw [if_pos hflag] at hp
        right
        refine ⟨hflag, ?_⟩
        unfold enforcement_result at hp
        cases hfe : fetch with
        | validation_error m =>
          simp only [hfe] at hp
          exact absurd hp (by simp)
        | other_error m =>
          simp only [hfe] at hp
          exact absurd hp (by simp)
        | ok rules =>
          simp only [hfe] at hp
          cases hip : ip_in_whitelist_eval P (stripStr raw) rules.ips
              cfg.ADDITIONAL_IP_LIST with
          | error e =>
            simp only [hip] at hp
            exact absurd hp (by simp)
          | ok w =>
            simp only [hip] at hp
            refine ⟨rules, rfl, ?_⟩
            by_cases h1 : should_request_auth_b req.headers req.authorization
                rules.auth req.path rules.shared_tokens w = true
            · rw [if_pos h1] at hp
              exact absurd hp (by simp)
            · rw [if_neg h1] at hp
              by_cases h2 : should_respond_ok_b req.headers req.authorization
                  rules.auth req.path rules.shared_tokens w = true
              · rw [if_pos h2] at hp
                exact absurd hp (by simp)
              · rw [if_neg h2] at hp
                by_cases h3 : (!all_checks_passed_b req.headers req.authorization
                    rules.auth rules.shared_tokens w) = true
                · rw [if_pos h3] at hp
                  exact absurd hp (by simp)
                · rw [if_neg h3] at hp
                  unfold proxy_to_origin at hp
                  exact (HandleResult.proxied.inj hp).symm

/-- Claim C1 counterexample: with the ip filter disabled (a bypassed request)
the deny-list stays empty, so the inbound Connection header is forwarded
verbatim to the origin rather than being stripped. -/
theorem claim_C1_counterexample :
    handle_request sampleParsers cfgOff (ConfigFetch.ok sampleRules) (sampleReq "/" none) =
      HandleResult.proxied
        { method := "GET", target := "/?",
          headers := [("X-Forwarded-For", "9.9.9.9, 1.2.3.4, 0.0.0.0"),
                      ("Connection", "close")],
          body := none } := by
  decide

/-- Claim C1 (amended): on an enforced proxied request the outbound headers
are the inbound headers minus the deny-list (lowercased shared-token header
names plus connection, compared case-insensitively, duplicate names collapsed
dict-style), so connection never reaches the origin on enforced requests; on a
bypassed proxied request the deny-list is empty and every inbound header —
including connection — is forwarded; in every proxied response exactly the
origin headers whose name does not lowercase to connection are forwarded, so
connection never appears downstream. -/
theorem claim_C1_header_stripping :
    (∀ {Addr Net : Type} (P : IpParsers Addr Net) (cfg : AppSettings)
       (rules : IpFilterRules) (req : Request) (o : OriginRequest),
      ip_filter_enabled_and_required_for_path cfg req = true →
      handle_request P cfg (ConfigFetch.ok rules) req = HandleResult.proxied o →
      o.headers = outbound_request_headers req.headers
        (headers_to_remove_of rules.shared_tokens) ∧
      ∀ kv ∈ o.headers, lowerStr kv.1 ≠ "connection") ∧
    (∀ {Addr Net : Type} (P : IpParsers Addr Net) (cfg : AppSettings)
       (fetch : ConfigFetch) (req : Request) (o : OriginRequest),
      ip_filter_enabled_and_required_for_path cfg req = false →
      handle_request P cfg fetch req = HandleResult.proxied o →
      o.headers = outbound_request_headers req.headers []) ∧
    (∀ (origin_headers : List (String × String)) (kv : String × String),
      kv ∈ downstream_response_headers origin_headers ↔
        kv ∈ origin_headers ∧ lowerStr kv.1 ≠ "connection") := by
  refine ⟨?_, ?_, downstream_mem_iff⟩
  · intro Addr Net P cfg rules req o hflag hp
    rcases handle_request_proxied_shape P cfg (ConfigFetch.ok rules) req o hp with
      ⟨hf, -⟩ | ⟨-, rules2, hfe, rfl⟩
    · rw [hflag] at hf
      exact absurd hf (by simp)
    · have hr : rules2 = rules := by
        have := ConfigFetch.ok.inj hfe.symm
        rw [this]
      subst hr
      refine ⟨rfl, ?_⟩
      intro kv hkv
      have hnc := outbound_request_headers_not_removed _ _ kv hkv
      intro hceq
      rw [contains_false_iff] at hnc
      apply hnc
      rw [hceq]
      unfold headers_to_remove_of
      simp
  · intro Addr Net P cfg fetch req o hflag hp
    rcases handle_request_proxied_shape P cfg fetch req o hp with
      ⟨-, rfl⟩ | ⟨ht, -⟩
    · rfl
    · rw [hflag] at ht
      exact absurd ht (by simp)

theorem claim_C1_witness :
    ip_filter_enabled_and_required_for_path cfgOff (sampleReq "/" none) = false ∧
    (OriginRequest.mk "GET" "/?"
        [("X-Forwarded-For", "9.9.9.9, 1.2.3.4, 0.0.0.0"), ("Connection", "close")]
        none).headers =
      outbound_request_headers (sampleReq "/" none).headers [] :=
  ⟨by decide,
   claim_C1_header_stripping.2.1 sampleParsers cfgOff (ConfigFetch.ok sampleRules)
     (sampleReq "/" none)
     (OriginRequest.mk "GET" "/?"
       [("X-Forwarded-For", "9.9.9.9, 1.2.3.4, 0.0.0.0"), ("Connection", "close")] none)
     (by decide) (by decide)⟩

/-! ## Body-framing lemmas -/

theorem streamChunksAux_flatten (fuel : Nat) (bs : List Nat) (hf : bs.length ≤ fuel) :
    (streamChunksAux fuel bs).flatten = bs := by
  induction fuel generalizing bs with
  | zero =>
    cases bs with
    | nil => rfl
    | cons b rest => simp at hf
  | succ n ih =>
    cases bs with
    | nil => rfl
    | cons b rest =>
      simp only [streamChunksAux, List.flatten_cons]
      rw [ih]
      · exact List.take_append_drop 65536 (b :: rest)
      · simp only [List.length_drop, List.length_cons]
        simp only [List.length_cons] at hf
        omega

theorem streamChunksAux_chunk (fuel : Nat) (bs : List Nat) (c : List Nat)
    (h : c ∈ streamChunksAux fuel bs) : c ≠ [] ∧ c.length ≤ 65536 := by
  induction fuel generalizing bs with
  | zero => simp [streamChunksAux] at h
  | succ n ih =>
    cases bs with
    | nil => simp [streamChunksAux] at h
    | cons b rest =>
      simp only [streamChunksAux, List.mem_cons] at h
      rcases h with rfl | h
      · exact ⟨by simp, List.length_take_le 65536 (b :: rest)⟩
      · exact ih _ h

/-- Claim C4: every proxied request carries a body exactly when the inbound
request has a content-length header or a transfer-encoding header lowercasing
to chunked; when present the body is the chunked reading of the inbound
stream, whose concatenation is the stream itself with every chunk nonempty and
at most 65536 bytes (so a Content-Length: 0 request is forwarded with an empty
body, and a request with neither framing header gets no body at all). -/
theorem claim_C4_body_framing {Addr Net : Type} (P : IpParsers Addr Net)
    (cfg : AppSettings) (fetch : ConfigFetch) (req : Request) (o : OriginRequest)
    (hp : handle_request P cfg fetch req = HandleResult.proxied o) :
    o.body = request_body_chunks req ∧
    (o.body ≠ none ↔ has_request_body req.headers = true) ∧
    has_request_body req.headers =
      (headerHas req.headers "content-length" ||
        lowerStr (headerGetD req.headers "transfer-encoding" "") == "chunked") ∧
    (∀ cs, o.body = some cs →
      cs.flatten = req.stream ∧ ∀ c ∈ cs, c ≠ [] ∧ c.length ≤ 65536) := by
  have hb : o.body = request_body_chunks req := by
    rcases handle_request_proxied_shape P cfg fetch req o hp with
      ⟨-, rfl⟩ | ⟨-, rules, -, rfl⟩
    · rfl
    · rfl
  refine ⟨hb, ?_, rfl, ?_⟩
  · rw [hb]
    unfold request_body_chunks
    by_cases hrb : has_request_body req.headers = true <;> simp [hrb]
  · intro cs hcs
    rw [hb] at hcs
    unfold request_body_chunks at hcs
    by_cases hrb : has_request_body req.headers = true
    · rw [if_pos hrb] at hcs
      have hcs' : streamChunks req.stream = cs := Option.some.inj hcs
      constructor
      · rw [← hcs']
        exact streamChunksAux_flatten _ _ le_rfl
      · intro c hc
        rw [← hcs'] at hc
        exact streamChunksAux_chunk _ _ c hc
    · rw [if_neg hrb] at hcs
      exact absurd hcs (by simp)

theorem claim_C4_witness :
    handle_request sampleParsers cfgOff (ConfigFetch.ok sampleRules)
      { path := "/", host := "h", method := "POST", full_path := "/?",
        headers := [("X-Forwarded-For", "9.9.9.9, 1.2.3.4, 0.0.0.0"),
                    ("Content-Length", "0")],
        authorization := none, stream := [] } =
      HandleResult.proxied
        { method := "POST", target := "/?",
          headers := [("X-Forwarded-For", "9.9.9.9, 1.2.3.4, 0.0.0.0"),
                      ("Content-Length", "0")],
          body := some [] } ∧
    (OriginRequest.mk "POST" "/?"
        [("X-Forwarded-For", "9.9.9.9, 1.2.3.4, 0.0.0.0"), ("Content-Length", "0")]
        (some [])).body =
      request_body_chunks
        { path := "/", host := "h", method := "POST", full_path := "/?",
          headers := [("X-Forwarded-For", "9.9.9.9, 1.2.3.4, 0.0.0.0"),
                      ("Content-Length", "0")],
          authorization := none, stream := [] } :=
  ⟨by decide,
   (claim_C4_body_framing sampleParsers cfgOff (ConfigFetch.ok sampleRules)
      { path := "/", host := "h", method := "POST", full_path := "/?",
        headers := [("X-Forwarded-For", "9.9.9.9, 1.2.3.4, 0.0.0.0"),
                    ("Content-Length", "0")],
        authorization := none, stream := [] }
      (OriginRequest.mk "POST" "/?"
        [("X-Forwarded-For", "9.9.9.9, 1.2.3.4, 0.0.0.0"), ("Content-Length", "0")]
        (some []))
      (by decide)).1⟩

/-! ## Whitelist-evaluation lemmas -/

theorem anyE_all_false {α : Type} (f : α → Except String Bool) (l : List α)
    (h : ∀ x ∈ l, f x = Except.ok false) : anyE f l = Except.ok false := by
  induction l with
  | nil => rfl
  | cons a as ih =>
    simp only [anyE, h a (by simp)]
    exact ih (fun x hx => h x (by simp [hx]))

theorem anyE_false_then {α : Type} (f : α → Except String Bool) (pre rest : List α)
    (hpre : ∀ x ∈ pre, f x = Except.ok false) :
    anyE f (pre ++ rest) = anyE f rest := by
  induction pre with
  | nil => rfl
  | cons a as ih =>
    rw [List.cons_append]
    simp only [anyE, hpre a (by simp)]
    exact ih (fun x hx => hpre x (by simp [hx]))

/-- Claim C10 (implicit): computing `ip_in_whitelist` is not total. When the
selected client-ip string fails to parse, evaluation raises exactly when the
merged IpRanges list is non-empty or the client-ip is not string-equal to any
additional_ip_list entry while that list is non-empty (with an empty IpRanges
list the parse is otherwise never attempted); an additional_ip_list entry
reached during evaluation that parses as neither an address nor a network also
raises; and an enforced request whose whitelist evaluation raises makes the
handler end in the unhandled exception (a 500-class server error) instead of
the 403 denial page. -/
theorem claim_C10_whitelist_partiality {Addr Net : Type} (P : IpParsers Addr Net) :
    (∀ client ips additional, P.ip_address client = none →
      (ips ≠ [] ∨ (additional.contains client = false ∧ additional ≠ [])) →
      ∃ e, ip_in_whitelist_eval P client ips additional = Except.error e) ∧
    (∀ client additional, P.ip_address client = none →
      additional.contains client = true →
      ip_in_whitelist_eval P client [] additional = Except.ok true) ∧
    (∀ client, P.ip_address client = none →
      ip_in_whitelist_eval P client [] [] = Except.ok false) ∧
    (∀ client a ips pre entry post, P.ip_address client = some a →
      (∀ r ∈ ips, ∃ n, P.ip_network r = some n ∧ P.mem a n = false) →
      (pre ++ entry :: post).contains client = false →
      (∀ r ∈ pre, ∃ n, P.ip_network r = some n ∧ P.mem a n = false) →
      P.ip_network entry = none →
      ∃ e, ip_in_whitelist_eval P client ips (pre ++ entry :: post) =
        Except.error e) ∧
    (∀ (cfg : AppSettings) (rules : IpFilterRules) (req : Request) (x raw msg : String),
      headerGet? req.headers "X-Forwarded-For" = some x →
      pyIndex? (splitCommas x) cfg.IP_DETERMINED_BY_X_FORWARDED_FOR_INDEX = some raw →
      ip_filter_enabled_and_required_for_path cfg req = true →
      ip_in_whitelist_eval P (stripStr raw) rules.ips cfg.ADDITIONAL_IP_LIST =
        Except.error msg →
      handle_request P cfg (ConfigFetch.ok rules) req =
        HandleResult.unhandled_error msg) := by
  refine ⟨?_, ?_, ?_, ?_, ?_⟩
  · intro client ips additional hpc hcond
    cases ips with
    | cons i is =>
      refine ⟨"ValueError: " ++ client, ?_⟩
      simp only [ip_in_whitelist_eval, anyE, containsStep, hpc]
    | nil =>
      rcases hcond with h | ⟨hcon, hadd⟩
      · exact absurd rfl h
      · cases additional with
        | nil => exact absurd rfl hadd
        | cons a as =>
          refine ⟨"ValueError: " ++ client, ?_⟩
          simp only [ip_in_whitelist_eval, anyE, hcon, containsStep, hpc]
          simp
  · intro client additional hpc hcon
    simp only [ip_in_whitelist_eval, anyE, hcon]
    simp
  · intro client hpc
    simp only [ip_in_whitelist_eval, anyE]
    simp [List.contains]
  · intro client a ips pre entry post hpa hips hcon hpre hent
    have hstep : ∀ r ∈ ips, containsStep P client r = Except.ok false := by
      intro r hr
      rcases hips r hr with ⟨n, hn, hm⟩
      simp only [containsStep, hpa, hn, hm]
    have hstep2 : ∀ r ∈ pre, containsStep P client r = Except.ok false := by
      intro r hr
      rcases hpre r hr with ⟨n, hn, hm⟩
      simp only [containsStep, hpa, hn, hm]
    refine ⟨"ValueError: " ++ entry, ?_⟩
    simp only [ip_in_whitelist_eval, anyE_all_false _ _ hstep, hcon]
    rw [if_neg (by simp)]
    rw [anyE_false_then _ pre _ hstep2]
    simp only [anyE, containsStep, hpa, hent]
  · intro cfg rules req x raw msg hx hi hflag hip
    unfold handle_request
    simp only [hx, hi, hflag]
    simp only [if_true]
    unfold enforcement_result
    simp only [hip]

theorem claim_C10_witness :
    sampleParsers.ip_address "" = none ∧
    ((["1.2.3.4/32"] : List String) ≠ [] ∨
      ((([] : List String)).contains "" = false ∧ ([] : List String) ≠ [])) ∧
    ∃ e, ip_in_whitelist_eval sampleParsers "" ["1.2.3.4/32"] [] = Except.error e :=
  ⟨by decide, Or.inl (by decide),
   (claim_C10_whitelist_partiality sampleParsers).1 "" ["1.2.3.4/32"] []
     (by decide) (Or.inl (by decide))⟩

/-! ## Conflict-resolution lemmas -/

theorem effective_protected_resolve (cfg : AppSettings) :
    effective_protected_paths (resolve_conflicts cfg) = effective_protected_paths cfg := by
  unfold resolve_conflicts effective_protected_paths effective_priv_host_list
  by_cases h1 : cfg.PUBLIC_PATHS.isEmpty <;> by_cases h2 : cfg.PROTECTED_PATHS.isEmpty <;>
    simp [h1, h2]

theorem effective_priv_resolve (cfg : AppSettings) :
    effective_priv_host_list (resolve_conflicts cfg) = effective_priv_host_list cfg := by
  unfold resolve_conflicts effective_priv_host_list effective_protected_paths
  by_cases h1 : cfg.PRIV_HOST_LIST.isEmpty <;> by_cases h2 : cfg.PUB_HOST_LIST.isEmpty <;>
    simp [h1, h2]

theorem flag_resolve (cfg : AppSettings) (req : Request) :
    ip_filter_enabled_and_required_for_path (resolve_conflicts cfg) req =
      ip_filter_enabled_and_required_for_path cfg req := by
  unfold ip_filter_enabled_and_required_for_path
  rw [effective_protected_resolve, effective_priv_resolve]
  rfl

/-- Claim C9: the two conflict-resolution rules hold, the effective lists are
never simultaneously active, and the handler behaves identically on the
original settings and on the settings with both rules applied, so every
bypass/enforce decision uses only the effective lists. -/
theorem claim_C9_conflict_resolution (cfg : AppSettings) :
    ((cfg.PUBLIC_PATHS ≠ [] ∧ cfg.PROTECTED_PATHS ≠ []) →
      effective_protected_paths cfg = []) ∧
    ((cfg.PUB_HOST_LIST ≠ [] ∧ cfg.PRIV_HOST_LIST ≠ []) →
      effective_priv_host_list cfg = []) ∧
    ¬(cfg.PUBLIC_PATHS ≠ [] ∧ effective_protected_paths cfg ≠ []) ∧
    ¬(cfg.PUB_HOST_LIST ≠ [] ∧ effective_priv_host_list cfg ≠ []) ∧
    (∀ {Addr Net : Type} (P : IpParsers Addr Net) (fetch : ConfigFetch) (req : Request),
      handle_request P cfg fetch req = handle_request P (resolve_conflicts cfg) fetch req) := by
  have hprot : (cfg.PUBLIC_PATHS ≠ [] ∧ cfg.PROTECTED_PATHS ≠ []) →
      effective_protected_paths cfg = [] := by
    rintro ⟨h1, h2⟩
    unfold effective_protected_paths
    rw [if_pos (by simp [Bool.and_eq_true, Bool.not_eq_true', isEmpty_false_iff, h1, h2])]
  have hpriv : (cfg.PUB_HOST_LIST ≠ [] ∧ cfg.PRIV_HOST_LIST ≠ []) →
      effective_priv_host_list cfg = [] := by
    rintro ⟨h1, h2⟩
    unfold effective_priv_host_list
    rw [if_pos (by simp [Bool.and_eq_true, Bool.not_eq_true', isEmpty_false_iff, h1, h2])]
  refine ⟨hprot, hpriv, ?_, ?_, ?_⟩
  · rintro ⟨h1, h2⟩
    by_cases h3 : cfg.PROTECTED_PATHS = []
    · exact h2 (by simp [effective_protected_paths, h3])
    · exact h2 (hprot ⟨h1, h3⟩)
  · rintro ⟨h1, h2⟩
    by_cases h3 : cfg.PRIV_HOST_LIST = []
    · exact h2 (by simp [effective_priv_host_list, h3])
    · exact h2 (hpriv ⟨h1, h3⟩)
  · intro Addr Net P fetch req
    unfold handle_request
    rw [flag_resolve]
    rfl

theorem claim_C9_witness :
    ((["/pub"] : List String) ≠ [] ∧ (["/prot"] : List String) ≠ []) ∧
    effective_protected_paths
      { IPFILTER_ENABLED := true
        IP_DETERMINED_BY_X_FORWARDED_FOR_INDEX := -2
        PROTECTED_PATHS := ["/prot"]
        PUBLIC_PATHS := ["/pub"]
        PRIV_HOST_LIST := []
        PUB_HOST_LIST := []
        ADDITIONAL_IP_LIST := [] } = [] :=
  ⟨by decide,
   (claim_C9_conflict_resolution
      { IPFILTER_ENABLED := true
        IP_DETERMINED_BY_X_FORWARDED_FOR_INDEX := -2
        PROTECTED_PATHS := ["/prot"]
        PUBLIC_PATHS := ["/pub"]
        PRIV_HOST_LIST := []
        PUB_HOST_LIST := []
        ADDITIONAL_IP_LIST := [] }).1 (by decide)⟩

theorem claim_C5_witness :
    (∀ p ∈ ["a", "b"], schema_validate sampleNetOk (sampleFetch p) = Except.ok ()) ∧
    get_ipfilter_config sampleFetch sampleNetOk ["a", "b"] =
      Except.ok
        { ips := (["a", "b"].map (fun p => (sampleFetch p).IpRanges)).flatten
          auth := (["a", "b"].map (fun p => (sampleFetch p).BasicAuth)).flatten
          shared_tokens := (["a", "b"].map (fun p => (sampleFetch p).SharedTokens)).flatten } :=
  ⟨by decide, (claim_C5_policy_merge sampleFetch sampleNetOk ["a", "b"]).1 (by decide)⟩

end IpFilter
